import Mathlib

/-!
Verification of the ContentGen Pro ("magic tricks") client library code:
the completion-reply parser (`src/lib/claude.ts`), the storage validation
and upload helpers (`src/lib/supabaseStorage.ts`), the local session cache
(`src/lib/storage.ts`), the profile-creation retry path
(`src/contexts/AuthContext.tsx`) and the row-level-security policies
(database setup SQL).

JavaScript runtime values flowing through `JSON.parse` are modelled by the
inductive type `JVal`; machine numbers that only ever hold timestamps or
sizes are modelled as `Int`/`Nat`.
-/

namespace MagicTricks

/-- A JSON value, as produced by `JSON.parse`.  Numbers are modelled as
integers (the repository only ever produces or consumes integral numbers
in the code under verification). -/
inductive JVal where
  | null : JVal
  | bool (b : Bool) : JVal
  | num (n : Int) : JVal
  | str (s : String) : JVal
  | arr (elems : List JVal) : JVal
  | obj (fields : List (String × JVal)) : JVal

/-- JavaScript truthiness of a JSON value: `null`, `false`, `0` and `""`
are falsy; every array and object is truthy. -/
def jsTruthy : JVal → Bool
  | .null => false
  | .bool b => b
  | .num n => n != 0
  | .str s => s != ""
  | .arr _ => true
  | .obj _ => true

/-! ### Decimal printing and parsing

`Date.now().toString()` and `parseInt(s, 10)` are modelled by an explicit
decimal printer and parser over character lists. -/

/-- Decimal digit character for `d < 10` (`'0'` has code 48). -/
def digitChar (d : Nat) : Char := Char.ofNat (48 + d)

/-- Accumulator version of the decimal printer, structurally recursive on
a fuel argument (any fuel with `n < 10 ^ fuel` yields the digits of `n`
prepended to `acc`). -/
def natDecAux : Nat → Nat → List Char → List Char
  | 0, _, acc => acc
  | f + 1, n, acc =>
      if n < 10 then digitChar n :: acc
      else natDecAux f (n / 10) (digitChar (n % 10) :: acc)

/-- Decimal digits of a natural number, most significant first. -/
def natDec (n : Nat) : List Char := natDecAux (n + 1) n []

/-- Decimal representation of an integer, as produced by
`Number.prototype.toString` on an integral value. -/
def intDec (n : Int) : String :=
  if n < 0 then String.mk ('-' :: natDec n.natAbs) else String.mk (natDec n.natAbs)

/-- Numeric value of a digit list, with accumulator `a`. -/
def digitsValAux (a : Nat) : List Char → Nat
  | [] => a
  | c :: cs => digitsValAux (a * 10 + (c.toNat - 48)) cs

/-- JSON (and JavaScript) whitespace, as skipped by `parseInt` and the
JSON parser. -/
def isJsonWs (c : Char) : Bool := c = ' ' || c = '\t' || c = '\n' || c = '\r'

/-- Value of the longest leading digit run, or `none` (`NaN`) when it is
empty. -/
def decDigitsVal (cs : List Char) : Option Nat :=
  let ds := cs.takeWhile Char.isDigit
  if ds.isEmpty then none else some (digitsValAux 0 ds)

/-- Model of `parseInt(s, 10)` on a character list: skip leading
whitespace, read an optional sign and then the longest leading run of
decimal digits; `none` models the `NaN` result when that run is empty. -/
def jsParseIntChars (cs0 : List Char) : Option Int :=
  match cs0.dropWhile isJsonWs with
  | [] => none
  | c :: rest =>
      if c = '-' then (decDigitsVal rest).map (fun v => -(v : Int))
      else if c = '+' then (decDigitsVal rest).map (fun v => (v : Int))
      else (decDigitsVal (c :: rest)).map (fun v => (v : Int))

/-- Model of `parseInt(s, 10)`. -/
def jsParseInt (s : String) : Option Int := jsParseIntChars s.data

/-! ### JSON parsing and serialization

`JSON.parse` is modelled by a fuel-indexed recursive-descent parser over
character lists, and `JSON.stringify` by a canonical serializer.  Model
restrictions (they do not affect any value the claims are settled on):
numbers are integral (no fraction or exponent part), and `\u` escapes are
not interpreted. -/

/-- Drop leading JSON whitespace. -/
def skipWs (cs : List Char) : List Char := cs.dropWhile isJsonWs

/-- Interpretation of a character following a backslash in a JSON string
literal. -/
def escChar (c : Char) : Option Char :=
  if c = '"' ∨ c = '\\' ∨ c = '/' then some c
  else if c = 'n' then some '\n'
  else if c = 't' then some '\t'
  else if c = 'r' then some '\r'
  else if c = 'b' then some (Char.ofNat 8)
  else if c = 'f' then some (Char.ofNat 12)
  else none

/-- Parse the body of a JSON string literal (the opening quote already
consumed), returning the decoded characters and the rest of the input. -/
def parseStrChars : List Char → Option (List Char × List Char)
  | [] => none
  | '"' :: rest => some ([], rest)
  | '\\' :: rest =>
      match rest with
      | [] => none
      | c :: rest' =>
          match escChar c with
          | none => none
          | some e =>
              match parseStrChars rest' with
              | none => none
              | some (s, r) => some (e :: s, r)
  | c :: rest =>
      match parseStrChars rest with
      | none => none
      | some (s, r) => some (c :: s, r)

/-- Parse a nonempty run of decimal digits into a natural number; fails on
a following `.`, `e` or `E` (integral-numbers model restriction). -/
def parseNum (cs : List Char) : Option (Nat × List Char) :=
  let ds := cs.takeWhile Char.isDigit
  let rest := cs.dropWhile Char.isDigit
  if ds.isEmpty then none
  else
    match rest with
    | '.' :: _ => none
    | 'e' :: _ => none
    | 'E' :: _ => none
    | _ => some (digitsValAux 0 ds, rest)

mutual

/-- Fuel-indexed JSON value parser. -/
def parseVal : Nat → List Char → Option (JVal × List Char)
  | 0, _ => none
  | f + 1, cs =>
      match skipWs cs with
      | '{' :: rest => parseObjRest f rest
      | '[' :: rest => parseArrRest f rest
      | '"' :: rest =>
          match parseStrChars rest with
          | none => none
          | some (s, r) => some (.str (String.mk s), r)
      | 't' :: 'r' :: 'u' :: 'e' :: rest => some (.bool true, rest)
      | 'f' :: 'a' :: 'l' :: 's' :: 'e' :: rest => some (.bool false, rest)
      | 'n' :: 'u' :: 'l' :: 'l' :: rest => some (.null, rest)
      | '-' :: rest =>
          match parseNum rest with
          | none => none
          | some (n, r) => some (.num (-(n : Int)), r)
      | rest =>
          match parseNum rest with
          | none => none
          | some (n, r) => some (.num (n : Int), r)

/-- Parse the rest of an object (after the opening brace). -/
def parseObjRest : Nat → List Char → Option (JVal × List Char)
  | 0, _ => none
  | f + 1, cs =>
      match skipWs cs with
      | '}' :: rest => some (.obj [], rest)
      | cs' => parseMembers f cs' []

/-- Parse `"key" : value` pairs separated by commas, up to the closing
brace. -/
def parseMembers : Nat → List Char → List (String × JVal) → Option (JVal × List Char)
  | 0, _, _ => none
  | f + 1, cs, acc =>
      match skipWs cs with
      | '"' :: rest =>
          match parseStrChars rest with
          | none => none
          | some (k, rest1) =>
              match skipWs rest1 with
              | ':' :: rest2 =>
                  match parseVal f rest2 with
                  | none => none
                  | some (v, rest3) =>
                      match skipWs rest3 with
                      | ',' :: rest4 => parseMembers f rest4 (acc ++ [(String.mk k, v)])
                      | '}' :: rest4 => some (.obj (acc ++ [(String.mk k, v)]), rest4)
                      | _ => none
              | _ => none
      | _ => none

/-- Parse the rest of an array (after the opening bracket). -/
def parseArrRest : Nat → List Char → Option (JVal × List Char)
  | 0, _ => none
  | f + 1, cs =>
      match skipWs cs with
      | ']' :: rest => some (.arr [], rest)
      | cs' => parseElems f cs' []

/-- Parse array elements separated by commas, up to the closing bracket. -/
def parseElems : Nat → List Char → List JVal → Option (JVal × List Char)
  | 0, _, _ => none
  | f + 1, cs, acc =>
      match parseVal f cs with
      | none => none
      | some (v, rest) =>
          match skipWs rest with
          | ',' :: rest' => parseElems f rest' (acc ++ [v])
          | ']' :: rest' => some (.arr (acc ++ [v]), rest')
          | _ => none

end

/-- Model of `JSON.parse` on a character list: the whole input (up to
trailing whitespace) must be consumed. -/
def jsonParseChars (cs : List Char) : Option JVal :=
  match parseVal (cs.length + 1) cs with
  | none => none
  | some (v, rest) => if (skipWs rest).isEmpty then some v else none

/-- Model of `JSON.parse` on a string. -/
def jsonParse (s : String) : Option JVal := jsonParseChars s.data

/-- Escape one character for a JSON string literal, as `JSON.stringify`
does. -/
def jsonEscapeChar (c : Char) : List Char :=
  if c = '"' then ['\\', '"']
  else if c = '\\' then ['\\', '\\']
  else if c = '\n' then ['\\', 'n']
  else if c = '\t' then ['\\', 't']
  else if c = '\r' then ['\\', 'r']
  else [c]

mutual

/-- Model of `JSON.stringify` (canonical form, no added whitespace). -/
def stringifyVal : JVal → List Char
  | .null => "null".data
  | .bool true => "true".data
  | .bool false => "false".data
  | .num n => (intDec n).data
  | .str s => '"' :: (s.data.map jsonEscapeChar).flatten ++ ['"']
  | .arr xs => '[' :: stringifyElems xs ++ [']']
  | .obj fs => '{' :: stringifyFields fs ++ ['}']

/-- Serialize array elements, comma separated. -/
def stringifyElems : List JVal → List Char
  | [] => []
  | [x] => stringifyVal x
  | x :: y :: xs => stringifyVal x ++ ',' :: stringifyElems (y :: xs)

/-- Serialize object members, comma separated. -/
def stringifyFields : List (String × JVal) → List Char
  | [] => []
  | [(k, v)] => '"' :: (k.data.map jsonEscapeChar).flatten ++ '"' :: ':' :: stringifyVal v
  | (k, v) :: m :: fs =>
      '"' :: (k.data.map jsonEscapeChar).flatten ++ '"' :: ':' :: stringifyVal v
        ++ ',' :: stringifyFields (m :: fs)

end

/-- Model of `JSON.stringify` on a string result. -/
def jsonStringify (v : JVal) : String := String.mk (stringifyVal v)

/-! ### `src/lib/claude.ts`: trick generation and reply parsing -/

/-- Property access `v.k` on a parsed JSON value: `undefined` (`none`)
unless `v` is an object with member `k`; with duplicate keys the last
binding wins, as in `JSON.parse`. -/
def jvGet (v : JVal) (k : String) : Option JVal :=
  match v with
  | .obj fields => (fields.reverse.find? (fun p => p.1 == k)).map (fun p => p.2)
  | _ => none

/-- JavaScript `a || b` where `a` may be `undefined` (`none`). -/
def jsOr (a : Option JVal) (b : JVal) : JVal :=
  match a with
  | some v => if jsTruthy v then v else b
  | none => b

/-- The result type of `parseGeneratedTrick`.  Field values other than
`difficulty` are arbitrary runtime values (`JVal`), since the untyped
cleanup keeps any truthy parsed value; `difficulty` is always a string
because the `includes` check only passes the three literal strings. -/
structure GeneratedTrick where
  title : JVal
  description : JVal
  instructions : List JVal
  difficulty : String
  items : List JVal

/-- Suffix of the input starting at the first `'\x7b'`, if any. -/
def dropToBrace : List Char → Option (List Char)
  | [] => none
  | c :: rest => if c = '{' then some (c :: rest) else dropToBrace rest

/-- Prefix of the input ending at the last `'\x7d'`, if any. -/
def keepToLastClose (cs : List Char) : Option (List Char) :=
  match (cs.reverse.dropWhile (fun c => c ≠ '}')) with
  | [] => none
  | suf => some suf.reverse

/-- Model of `content.match(/\x7b[\s\S]*\x7d/)`: the (greedy) match runs
from the first `'\x7b'` of the input to the last `'\x7d'`, and exists
exactly when some `'\x7d'` follows some `'\x7b'`. -/
def extractBraces (cs : List Char) : Option (List Char) :=
  (dropToBrace cs).bind keepToLastClose

/-- The hardcoded fallback trick returned by `parseGeneratedTrick` when no
JSON can be extracted or parsed from the reply. -/
def fallbackTrick (requestedItems : List String) : GeneratedTrick :=
  { title := .str "AI Generated Magic Trick"
    description := .str "A magical trick created using artificial intelligence!"
    instructions :=
      [ .str "Gather your items"
      , .str "Follow the magical steps"
      , .str "Practice the routine"
      , .str "Amaze your audience!" ]
    difficulty := "Easy"
    items := requestedItems.map .str }

/-- The per-field cleanup applied to a successfully parsed JSON value
(lines 144-150 of `claude.ts`). -/
def cleanTrick (parsed : JVal) (requestedItems : List String) : GeneratedTrick :=
  { title := jsOr (jvGet parsed "title") (.str "Generated Magic Trick")
    description := jsOr (jvGet parsed "description") (.str "A magical trick created just for you!")
    instructions :=
      match jvGet parsed "instructions" with
      | some (.arr xs) => xs
      | _ => [.str "Follow the magic!"]
    difficulty :=
      match jvGet parsed "difficulty" with
      | some (.str d) => if d = "Easy" || d = "Medium" || d = "Hard" then d else "Easy"
      | _ => "Easy"
    items :=
      match jvGet parsed "items" with
      | some (.arr xs) => xs
      | _ => requestedItems.map .str }

/-- Model of `parseGeneratedTrick` (`claude.ts` lines 133-168): extract
the brace-delimited substring, `JSON.parse` it, and clean the result
per-field; any failure lands in the `catch` branch, which returns the
hardcoded fallback trick. -/
def parseGeneratedTrick (content : String) (requestedItems : List String) : GeneratedTrick :=
  match extractBraces content.data with
  | none => fallbackTrick requestedItems
  | some cs =>
      match jsonParseChars cs with
      | none => fallbackTrick requestedItems
      | some parsed => cleanTrick parsed requestedItems

/-- A JavaScript exception value: an `Error` carrying a message, or any
other thrown value. -/
inductive JsThrown where
  | error (message : String) : JsThrown
  | other : JsThrown

/-- Outcome of the remote `anthropic.messages.create` call:
it throws, or it returns a message whose first content block's `text` is
`none` (absent) or `some` text. -/
inductive ApiOutcome where
  | threw (e : JsThrown) : ApiOutcome
  | replied (content : Option String) : ApiOutcome

/-- Result type of `generateMagicTrick`. -/
structure TrickGenerationResponse where
  success : Bool
  trick : Option GeneratedTrick
  error : Option String

/-- Model of `generateMagicTrick` (`claude.ts` lines 29-80).  `apiKey`
models `CLAUDE_API_KEY` (`none` = undefined), and `api` the outcome of
the remote call.  The `if (!content)` guard (line 62) fires both when
the first content block's `text` is absent and when it is the empty
string (both are falsy), throwing the no-content `Error`, which the
surrounding `try` converts into a failure response.  The function never
propagates an exception: every failure is converted into a
`success := false` response. -/
def generateMagicTrick (apiKey : Option String) (api : ApiOutcome)
    (items : List String) : TrickGenerationResponse :=
  if !(match apiKey with | some k => k ≠ "" | none => false : Bool) then
    { success := false, trick := none
      error := some "Claude API key not configured. Please add VITE_CLAUDE_API_KEY to your environment variables." }
  else
    match api with
    | .threw (.error m) => { success := false, trick := none, error := some m }
    | .threw .other => { success := false, trick := none, error := some "Failed to generate magic trick" }
    | .replied none =>
        { success := false, trick := none, error := some "No content received from Claude API" }
    | .replied (some content) =>
        if content = "" then
          { success := false, trick := none, error := some "No content received from Claude API" }
        else
          { success := true, trick := some (parseGeneratedTrick content items), error := none }

/-! ### `src/lib/storage.ts`: the local session cache

`localStorage` is modelled as a partial map from keys to strings; each
reader that may clear expired data returns the (possibly updated) store
alongside its result.  `Date.now()` is the explicit parameter `now`. -/

/-- The browser `localStorage`, as a partial map. -/
def Store : Type := String → Option String

/-- Model of `localStorage.setItem`. -/
def setItem (st : Store) (k v : String) : Store :=
  fun x => if x = k then some v else st x

/-- Model of `localStorage.removeItem`. -/
def removeItem (st : Store) (k : String) : Store :=
  fun x => if x = k then none else st x

/-- Model of `localStorage.getItem` combined with the JavaScript
truthiness test applied to every read in `storage.ts` (`!userData`):
an absent key and an empty-string value are both falsy. -/
def getTruthy (st : Store) (k : String) : Option String :=
  match st k with
  | some s => if s = "" then none else some s
  | none => none

/-- Storage key `STORAGE_KEYS.USER`. -/
def KEY_USER : String := "contentgen_user"

/-- Storage key `STORAGE_KEYS.USER_PROFILE`. -/
def KEY_USER_PROFILE : String := "contentgen_user_profile"

/-- Storage key `STORAGE_KEYS.SESSION`. -/
def KEY_SESSION : String := "contentgen_session"

/-- Storage key `STORAGE_KEYS.LAST_SYNC`. -/
def KEY_LAST_SYNC : String := "contentgen_last_sync"

/-- Model of `isExpired` (`storage.ts` lines 26-30): data is expired when
strictly more than 24 hours have elapsed since `timestamp`. -/
def isExpired (now timestamp : Int) : Bool :=
  now - timestamp > 24 * 60 * 60 * 1000

/-- Expiry test on the result of `parseInt`: `isExpired(NaN)` is `false`
because every comparison against `NaN` is `false`. -/
def isExpiredOpt (now : Int) : Option Int → Bool
  | some t => isExpired now t
  | none => false

/-- Model of `safeJsonParse(data, null)`: `null` when parsing throws. -/
def safeJsonParse (data : String) : Option JVal := jsonParse data

/-- Model of `safeJsonStringify`: serialization of a `JVal` cannot throw
(no cyclic structures), so it always succeeds. -/
def safeJsonStringify (v : JVal) : Option String := some (jsonStringify v)

/-- Model of `clearUser`: removes the stored user and the last-sync
timestamp. -/
def clearUser (st : Store) : Store :=
  removeItem (removeItem st KEY_USER) KEY_LAST_SYNC

/-- Model of `clearUserProfile`: removes only the stored profile. -/
def clearUserProfile (st : Store) : Store := removeItem st KEY_USER_PROFILE

/-- Model of `clearSession`: removes only the stored session. -/
def clearSession (st : Store) : Store := removeItem st KEY_SESSION

/-- Model of `saveUser` (`storage.ts` lines 54-65): a non-null user is
serialized and stored with a fresh last-sync timestamp; `null` removes
the stored user and the timestamp. -/
def saveUser (st : Store) (now : Int) (user : Option JVal) : Store :=
  match user with
  | some u =>
      match safeJsonStringify u with
      | some userData => setItem (setItem st KEY_USER userData) KEY_LAST_SYNC (intDec now)
      | none => st
  | none => removeItem (removeItem st KEY_USER) KEY_LAST_SYNC

/-- Model of `getUser` (`storage.ts` lines 67-81): returns the parsed
stored user while fresh, and clears the user and timestamp (returning
`null`) when the last-sync timestamp is expired. -/
def getUser (st : Store) (now : Int) : Option JVal × Store :=
  match getTruthy st KEY_USER, getTruthy st KEY_LAST_SYNC with
  | some userData, some lastSync =>
      if isExpiredOpt now (jsParseInt lastSync) then (none, clearUser st)
      else (safeJsonParse userData, st)
  | _, _ => (none, st)

/-- Model of `saveUserProfile` (`storage.ts` lines 84-93): stores the
serialized profile (no timestamp update); `null` removes it. -/
def saveUserProfile (st : Store) (profile : Option JVal) : Store :=
  match profile with
  | some p =>
      match safeJsonStringify p with
      | some profileData => setItem st KEY_USER_PROFILE profileData
      | none => st
  | none => removeItem st KEY_USER_PROFILE

/-- Model of `getUserProfile` (`storage.ts` lines 95-109): returns the
parsed stored profile while fresh, clearing only the profile key when the
last-sync timestamp is expired. -/
def getUserProfile (st : Store) (now : Int) : Option JVal × Store :=
  match getTruthy st KEY_USER_PROFILE, getTruthy st KEY_LAST_SYNC with
  | some profileData, some lastSync =>
      if isExpiredOpt now (jsParseInt lastSync) then (none, clearUserProfile st)
      else (safeJsonParse profileData, st)
  | _, _ => (none, st)

/-- Model of `saveSession` (`storage.ts` lines 112-118). -/
def saveSession (st : Store) (now : Int) (session : JVal) : Store :=
  match safeJsonStringify session with
  | some sessionData => setItem (setItem st KEY_SESSION sessionData) KEY_LAST_SYNC (intDec now)
  | none => st

/-- Model of `getSession` (`storage.ts` lines 120-134): returns the
parsed stored session while fresh, clearing only the session key when the
last-sync timestamp is expired. -/
def getSession (st : Store) (now : Int) : Option JVal × Store :=
  match getTruthy st KEY_SESSION, getTruthy st KEY_LAST_SYNC with
  | some sessionData, some lastSync =>
      if isExpiredOpt now (jsParseInt lastSync) then (none, clearSession st)
      else (safeJsonParse sessionData, st)
  | _, _ => (none, st)

/-- Model of `hasValidStoredAuth` (`storage.ts` lines 176-184): reads the
user through `getUser` (which may clear expired data), then re-reads the
last-sync timestamp from the updated store. -/
def hasValidStoredAuth (st : Store) (now : Int) : Bool :=
  let p := getUser st now
  match p.1 with
  | none => false
  | some u =>
      if !(jsTruthy u) then false
      else
        match getTruthy p.2 KEY_LAST_SYNC with
        | none => false
        | some lastSync => !(isExpiredOpt now (jsParseInt lastSync))

/-! ### `src/lib/supabaseStorage.ts`: uploads and file validation -/

/-- The parts of a browser `File` object read by this code. -/
structure JsFile where
  name : String
  type : String
  size : Nat

/-- Result of `validateFile`. -/
structure ValidationResult where
  valid : Bool
  error : Option String

/-- Model of `validateFile` (`supabaseStorage.ts` lines 173-196): reject a
file whose MIME type is outside the allow-list or whose size exceeds the
byte limit, in that order; otherwise accept. -/
def validateFile (file : JsFile) (allowedTypes : List String) (maxSizeInBytes : Nat) :
    ValidationResult :=
  if !(allowedTypes.contains file.type) then
    { valid := false
      error := some ("File type not allowed. Allowed types: " ++ String.intercalate ", " allowedTypes) }
  else if file.size > maxSizeInBytes then
    { valid := false
      error := some ("File too large. Maximum size: " ++ intDec ((maxSizeInBytes + 524288) / 1048576 : Nat) ++ "MB") }
  else { valid := true, error := none }

/-- Model of `validateProfilePicture`. -/
def validateProfilePicture (file : JsFile) : ValidationResult :=
  validateFile file ["image/jpeg", "image/png", "image/gif", "image/webp"] (5 * 1024 * 1024)

/-- Model of `validateUserVideo`. -/
def validateUserVideo (file : JsFile) : ValidationResult :=
  validateFile file ["video/mp4", "video/webm", "video/quicktime", "video/x-msvideo"] (50 * 1024 * 1024)

/-- Outcome of the remote `supabase.storage.from(bucket).upload` call, as
a function of the bucket and full path: an error object with a message, a
thrown exception, or success. -/
inductive UploadOutcome where
  | err (message : String) : UploadOutcome
  | threw (e : JsThrown) : UploadOutcome
  | ok : UploadOutcome

/-- The remote storage service: upload outcome and public URL for each
bucket/path pair. -/
structure StorageEnv where
  upload : String → String → UploadOutcome
  publicUrl : String → String → String

/-- Result of `uploadFile`. -/
structure UploadResult where
  success : Bool
  url : Option String
  error : Option String
  path : Option String

/-- Model of `uploadFile` (`supabaseStorage.ts` lines 21-64): builds the
full path `userId + "/" + path` and uploads there, returning that path
and its public URL on success. -/
def uploadFile (env : StorageEnv) (bucket path : String) (_file : JsFile)
    (userId : String) : UploadResult :=
  let fullPath := userId ++ "/" ++ path
  match env.upload bucket fullPath with
  | .err message => { success := false, url := none, error := some message, path := none }
  | .threw (.error m) => { success := false, url := none, error := some m, path := none }
  | .threw .other => { success := false, url := none, error := some "Unknown error", path := none }
  | .ok =>
      { success := true, url := some (env.publicUrl bucket fullPath)
        error := none, path := some fullPath }

/-- Model of `file.name.split('.').pop() || fallback`: the last
dot-separated component of the name, or the fallback when it is empty. -/
def fileExtension (name fallback : String) : String :=
  let ext := ((name.splitOn ".").getLastD "")
  if ext = "" then fallback else ext

/-- Model of `uploadProfilePicture` (`supabaseStorage.ts` lines 69-84):
uploads to the `profile_pictures` bucket under a generated
`profile_<timestamp>.<ext>` name. -/
def uploadProfilePicture (env : StorageEnv) (file : JsFile) (userId : String)
    (timestamp : Int) : UploadResult :=
  let filename := "profile_" ++ intDec timestamp ++ "." ++ fileExtension file.name "jpg"
  uploadFile env "profile_pictures" filename file userId

/-- Model of `uploadUserVideo` (`supabaseStorage.ts` lines 89-105):
uploads to the `user_videos` bucket under a generated
`<custom>_<timestamp>.<ext>` or `video_<timestamp>.<ext>` name. -/
def uploadUserVideo (env : StorageEnv) (file : JsFile) (userId : String)
    (timestamp : Int) (customName : Option String) : UploadResult :=
  let ext := fileExtension file.name "mp4"
  let filename :=
    match customName with
    | some c => if c ≠ "" then c ++ "_" ++ intDec timestamp ++ "." ++ ext
                else "video_" ++ intDec timestamp ++ "." ++ ext
    | none => "video_" ++ intDec timestamp ++ "." ++ ext
  uploadFile env "user_videos" filename file userId

/-! ### Row-level-security policies (database setup SQL)

The `CREATE POLICY` statements for the `users` and `magic_tricks` tables
are embedded as decision functions: a command on a row is allowed exactly
when some policy for that command lets it through (`USING` for
select/update/delete, `WITH CHECK` for insert).  With row-level security
enabled, a command with no applicable policy is denied. -/

/-- SQL commands governed by row-level security. -/
inductive SqlCmd where
  | select : SqlCmd
  | insert : SqlCmd
  | update : SqlCmd
  | delete : SqlCmd

/-- A row of the `users` table, as far as the policies read it. -/
structure UsersRow where
  id : String

/-- A row of the `magic_tricks` table, as far as the policies read it. -/
structure TricksRow where
  user_id : String

/-- The policies on `users` (setup SQL lines 26-33): public select,
insert/update restricted to `auth.uid() = id`, and no delete policy at
all (so delete is denied by row-level security's default). -/
def usersPolicyAllows (uid : String) (cmd : SqlCmd) (row : UsersRow) : Bool :=
  match cmd with
  | .select => true
  | .insert => uid = row.id
  | .update => uid = row.id
  | .delete => false

/-- The policies on `magic_tricks` (setup SQL lines 56-66): public
select, insert/update/delete restricted to `auth.uid() = user_id`. -/
def tricksPolicyAllows (uid : String) (cmd : SqlCmd) (row : TricksRow) : Bool :=
  match cmd with
  | .select => true
  | .insert => uid = row.user_id
  | .update => uid = row.user_id
  | .delete => uid = row.user_id

/-! ### `src/contexts/AuthContext.tsx`: the profile-creation retry path

`createUserProfile` is modelled with the remote services as oracles: the
authenticated-user lookup result, and the outcome of the `users` insert
as a function of the retry count.  The `setTimeout` retry is collapsed
into a recursive call whose 2000 ms delay is recorded in the returned
trace. -/

/-- The fields of the authenticated user read by `createUserProfile`.
`email` may be absent, and the `user_metadata` fields may be absent. -/
structure AuthUser where
  email : Option String
  metaName : Option String
  metaBio : Option String

/-- Result of `supabase.auth.getUser()`: an error / missing user (both
paths return immediately), or an authenticated user. -/
inductive AuthResult where
  | err : AuthResult
  | ok (u : AuthUser) : AuthResult

/-- A database error as surfaced by the insert call. -/
structure DbError where
  code : String
  message : String

/-- Outcome of one `users` insert attempt. -/
inductive InsertOutcome where
  | ok (row : JVal) : InsertOutcome
  | err (e : DbError) : InsertOutcome

/-- JavaScript `a || b` for a possibly-absent string (empty is falsy). -/
def jsOrStr (a : Option String) (b : String) : String :=
  match a with
  | some s => if s ≠ "" then s else b
  | none => b

/-- Model of `String.prototype.includes`. -/
def strIncludes (s pat : String) : Bool :=
  pat = "" || (s.splitOn pat).length != 1

/-- The retry condition on an insert error (`AuthContext.tsx` line 236):
`error.code === '42501' || error.message.includes('permission')`. -/
def isPermissionError (e : DbError) : Bool :=
  e.code = "42501" || strIncludes e.message "permission"

/-- The display name computed for a new profile:
`user_metadata?.name || email?.split('@')[0] || 'User'`. -/
def profileDisplayName (u : AuthUser) : String :=
  jsOrStr u.metaName (jsOrStr (u.email.map (fun e => (e.splitOn "@").headD "")) "User")

/-- The temporary in-memory profile installed when every insert attempt
has failed (`AuthContext.tsx` lines 244-252). -/
def tempProfile (u : AuthUser) (userId nowIso : String) : JVal :=
  .obj
    [ ("id", .str userId)
    , ("name", .str (profileDisplayName u))
    , ("email", .str (jsOrStr u.email ""))
    , ("profile", .str "")
    , ("bio", .str (jsOrStr u.metaBio ""))
    , ("created_at", .str nowIso)
    , ("updated_at", .str nowIso) ]

/-- What a run of `createUserProfile` did: how it ended, how many insert
attempts it made, which retry delays it scheduled, and the final local
store. -/
structure CreateProfileRun where
  outcome : Option JVal
  viaTemp : Bool
  attempts : Nat
  delays : List Nat
  store : Store

/-- Model of `createUserProfile` (`AuthContext.tsx` lines 194-276).  An
insert error retries (after a 2000 ms delay) only when it is a
permission error (`code === '42501'` or a message containing
"permission") and `retryCount < 2`; otherwise the temporary profile is
installed and saved to the local cache.  A successful insert saves the
returned row. -/
def createUserProfile (auth : AuthResult) (ins : Nat → InsertOutcome)
    (userId nowIso : String) (st : Store) (retryCount : Nat) : CreateProfileRun :=
  match auth with
  | .err => { outcome := none, viaTemp := false, attempts := 0, delays := [], store := st }
  | .ok u =>
      match ins retryCount with
      | .ok row =>
          { outcome := some row, viaTemp := false, attempts := 1, delays := []
            store := saveUserProfile st (some row) }
      | .err e =>
          if h : isPermissionError e && retryCount < 2 then
            let r := createUserProfile auth ins userId nowIso st (retryCount + 1)
            { outcome := r.outcome, viaTemp := r.viaTemp, attempts := r.attempts + 1
              delays := 2000 :: r.delays, store := r.store }
          else
            let tp := tempProfile u userId nowIso
            { outcome := some tp, viaTemp := true, attempts := 1, delays := []
              store := saveUserProfile st (some tp) }
termination_by 2 - retryCount
decreasing_by
  simp only [Bool.and_eq_true, decide_eq_true_eq] at h
  omega

/-! ### Supporting lemmas -/

/-- A digit character is not JSON whitespace. -/
lemma isJsonWs_of_isDigit {c : Char} (h : c.isDigit = true) : isJsonWs c = false := by
  rcases eq_or_ne c ' ' with rfl | h1
  · exact absurd h (by decide)
  rcases eq_or_ne c '\t' with rfl | h2
  · exact absurd h (by decide)
  rcases eq_or_ne c '\n' with rfl | h3
  · exact absurd h (by decide)
  rcases eq_or_ne c '\r' with rfl | h4
  · exact absurd h (by decide)
  simp [isJsonWs, h1, h2, h3, h4]

/-- A digit character is not a sign. -/
lemma ne_sign_of_isDigit {c : Char} (h : c.isDigit = true) : c ≠ '-' ∧ c ≠ '+' := by
  constructor
  · rintro rfl; exact absurd h (by decide)
  · rintro rfl; exact absurd h (by decide)

/-- Character value of a digit character. -/
lemma digitChar_toNat {d : Nat} (h : d < 10) : (digitChar d).toNat = 48 + d := by
  interval_cases d <;> decide

/-- Digit characters are digits. -/
lemma digitChar_isDigit {d : Nat} (h : d < 10) : (digitChar d).isDigit = true := by
  interval_cases d <;> decide

/-- `dropWhile` ignores a prefix on which the predicate fails nowhere. -/
lemma dropWhile_eq_self_of_all {p : Char → Bool} {l : List Char}
    (h : ∀ c ∈ l, p c = false) : l.dropWhile p = l := by
  cases l with
  | nil => rfl
  | cons a l => simp [List.dropWhile_cons, h a (by simp)]

/-- `takeWhile` keeps the whole list when the predicate holds everywhere. -/
lemma takeWhile_eq_self_of_all {p : Char → Bool} {l : List Char}
    (h : ∀ c ∈ l, p c = true) : l.takeWhile p = l := by
  induction l with
  | nil => rfl
  | cons a l ih =>
      simp only [List.takeWhile_cons, h a (by simp), if_true]
      simp only [List.cons.injEq, true_and]
      exact ih (fun c hc => h c (by simp [hc]))

/-- Value of a printed digit run: processing the digits of `n` and then
`acc` from accumulator `0` equals processing `acc` from accumulator `n`. -/
lemma digitsValAux_natDecAux :
    ∀ (f n : Nat), n < 10 ^ f → ∀ (acc : List Char),
      digitsValAux 0 (natDecAux f n acc) = digitsValAux n acc := by
  intro f
  induction f with
  | zero =>
      intro n hn acc
      interval_cases n
      rfl
  | succ f ih =>
      intro n hn acc
      rw [natDecAux]
      by_cases h10 : n < 10
      · simp only [if_pos h10]
        show digitsValAux (0 * 10 + ((digitChar n).toNat - 48)) acc = digitsValAux n acc
        rw [digitChar_toNat h10]
        norm_num
      · simp only [if_neg h10]
        have hdiv : n / 10 < 10 ^ f := by
          rw [Nat.div_lt_iff_lt_mul (by norm_num)]
          calc n < 10 ^ (f + 1) := hn
          _ = 10 ^ f * 10 := by ring
        rw [ih (n / 10) hdiv]
        show digitsValAux ((n / 10) * 10 + ((digitChar (n % 10)).toNat - 48)) acc
            = digitsValAux n acc
        rw [digitChar_toNat (Nat.mod_lt n (by norm_num))]
        have : (n / 10) * 10 + (48 + n % 10 - 48) = n := by omega
        rw [this]

/-- Every character emitted by the decimal printer is a digit. -/
lemma natDecAux_all_digits :
    ∀ (f n : Nat) (acc : List Char), (∀ c ∈ acc, c.isDigit = true) →
      ∀ c ∈ natDecAux f n acc, c.isDigit = true := by
  intro f
  induction f with
  | zero => intro n acc hacc; exact hacc
  | succ f ih =>
      intro n acc hacc c hc
      rw [natDecAux] at hc
      by_cases h10 : n < 10
      · simp only [if_pos h10] at hc
        rcases List.mem_cons.mp hc with rfl | hmem
        · exact digitChar_isDigit h10
        · exact hacc c hmem
      · simp only [if_neg h10] at hc
        refine ih (n / 10) _ ?_ c hc
        intro d hd
        rcases List.mem_cons.mp hd with rfl | hmem
        · exact digitChar_isDigit (Nat.mod_lt n (by norm_num))
        · exact hacc d hmem

/-- The decimal printer output is never empty (for positive fuel). -/
lemma natDecAux_ne_nil :
    ∀ (f n : Nat) (acc : List Char), acc ≠ [] ∨ f ≠ 0 → natDecAux f n acc ≠ [] := by
  intro f
  induction f with
  | zero =>
      intro n acc h
      rcases h with h | h
      · exact h
      · exact absurd rfl h
  | succ f ih =>
      intro n acc _
      rw [natDecAux]
      by_cases h10 : n < 10
      · simp [h10]
      · simp only [if_neg h10]
        exact ih (n / 10) _ (Or.inl (by simp))

/-- Any natural number fits under `10 ^ (n + 1)`. -/
lemma lt_ten_pow_succ (n : Nat) : n < 10 ^ (n + 1) := by
  calc n < 10 ^ n := Nat.lt_pow_self (by norm_num) n
  _ ≤ 10 ^ (n + 1) := Nat.pow_le_pow_right (by norm_num) (by omega)

/-- The decimal value of `natDec n` is `n`. -/
lemma digitsValAux_natDec (n : Nat) : digitsValAux 0 (natDec n) = n := by
  rw [natDec, digitsValAux_natDecAux (n + 1) n (lt_ten_pow_succ n)]
  rfl

/-- On an all-digit nonempty list, `decDigitsVal` returns its full
decimal value. -/
lemma decDigitsVal_all_digits {cs : List Char} (hne : cs ≠ [])
    (hdigits : ∀ c ∈ cs, c.isDigit = true) :
    decDigitsVal cs = some (digitsValAux 0 cs) := by
  rw [decDigitsVal]
  simp only [takeWhile_eq_self_of_all hdigits]
  simp [List.isEmpty_iff, hne]

/-- `parseInt(n.toString(), 10)` recovers `n`: decimal-printing round
trip for the session-cache timestamps. -/
lemma jsParseInt_intDec (n : Int) : jsParseInt (intDec n) = some n := by
  have hdigits : ∀ c ∈ natDec n.natAbs, c.isDigit = true :=
    natDecAux_all_digits (n.natAbs + 1) n.natAbs [] (by simp)
  have hne : natDec n.natAbs ≠ [] :=
    natDecAux_ne_nil (n.natAbs + 1) n.natAbs [] (Or.inr (by omega))
  have hval : digitsValAux 0 (natDec n.natAbs) = n.natAbs := digitsValAux_natDec n.natAbs
  have hdv : decDigitsVal (natDec n.natAbs) = some n.natAbs := by
    rw [decDigitsVal_all_digits hne hdigits, hval]
  rcases hl : natDec n.natAbs with _ | ⟨c, rest⟩
  · exact absurd hl hne
  have hed : c.isDigit = true := hdigits c (by rw [hl]; simp)
  have hcws : isJsonWs c = false := isJsonWs_of_isDigit hed
  have hsign := ne_sign_of_isDigit hed
  by_cases hneg : n < 0
  · rw [intDec, if_pos hneg, jsParseInt]
    show jsParseIntChars ('-' :: natDec n.natAbs) = some n
    have hdw : ('-' :: natDec n.natAbs).dropWhile isJsonWs = '-' :: natDec n.natAbs := by
      rw [List.dropWhile_cons]
      simp [isJsonWs]
    simp only [jsParseIntChars, hdw, hdv, if_pos rfl]
    simp [abs_of_neg hneg]
  · rw [intDec, if_neg hneg, jsParseInt]
    show jsParseIntChars (natDec n.natAbs) = some n
    have hdw : (natDec n.natAbs).dropWhile isJsonWs = natDec n.natAbs := by
      refine dropWhile_eq_self_of_all ?_
      intro d hd
      exact isJsonWs_of_isDigit (hdigits d hd)
    rw [hl] at hdw hdv
    simp only [jsParseIntChars, hl, hdw, hsign.1, hsign.2, if_false, hdv]
    simp
    omega

/-- Reading back a key just written. -/
lemma getTruthy_setItem_same (st : Store) (k v : String) :
    getTruthy (setItem st k v) k = if v = "" then none else some v := by
  simp [getTruthy, setItem]

/-- Writing one key does not affect reads of another. -/
lemma getTruthy_setItem_other (st : Store) (k k' v : String) (h : k' ≠ k) :
    getTruthy (setItem st k v) k' = getTruthy st k' := by
  simp [getTruthy, setItem, h]

/-- Reading a key just removed. -/
lemma getTruthy_removeItem_same (st : Store) (k : String) :
    getTruthy (removeItem st k) k = none := by
  simp [getTruthy, removeItem]

/-- Removing one key does not affect reads of another. -/
lemma getTruthy_removeItem_other (st : Store) (k k' : String) (h : k' ≠ k) :
    getTruthy (removeItem st k) k' = getTruthy st k' := by
  simp [getTruthy, removeItem, h]

/-- The serializer never returns the empty character list. -/
lemma stringifyVal_ne_nil (v : JVal) : stringifyVal v ≠ [] := by
  cases v with
  | null => simp [stringifyVal]
  | bool b => cases b <;> simp [stringifyVal]
  | num n =>
      simp only [stringifyVal]
      rw [intDec]
      split
      · simp
      · show (String.mk (natDec n.natAbs)).data ≠ []
        exact natDecAux_ne_nil (n.natAbs + 1) n.natAbs [] (Or.inr (by omega))
  | str s => simp [stringifyVal]
  | arr xs => simp [stringifyVal]
  | obj fs => simp [stringifyVal]

/-- The serialized form of a value is a non-empty string. -/
lemma jsonStringify_ne_empty (v : JVal) : jsonStringify v ≠ "" := by
  rw [jsonStringify]
  intro h
  have : stringifyVal v = [] := by
    have := congrArg String.data h
    simpa using this
  exact stringifyVal_ne_nil v this

/-! ### Claim C2: file validation -/

/-- C2: `validateFile` returns invalid (with an error message) exactly
when the file's MIME type is outside the allow-list or its size exceeds
the byte limit, and valid for every file whose type is in the allow-list
and whose size is within the limit; `validateProfilePicture` uses the
image allow-list with a 5 MiB limit and `validateUserVideo` the video
allow-list with a 50 MiB limit. -/
theorem validateFile_spec (file : JsFile) (allowedTypes : List String) (maxSizeInBytes : Nat) :
    ((validateFile file allowedTypes maxSizeInBytes).valid = false ↔
      file.type ∉ allowedTypes ∨ file.size > maxSizeInBytes) ∧
    ((validateFile file allowedTypes maxSizeInBytes).valid = true ↔
      file.type ∈ allowedTypes ∧ file.size ≤ maxSizeInBytes) ∧
    ((validateFile file allowedTypes maxSizeInBytes).valid = false →
      ∃ msg, (validateFile file allowedTypes maxSizeInBytes).error = some msg) ∧
    validateProfilePicture file =
      validateFile file ["image/jpeg", "image/png", "image/gif", "image/webp"] (5 * 1024 * 1024) ∧
    validateUserVideo file =
      validateFile file ["video/mp4", "video/webm", "video/quicktime", "video/x-msvideo"]
        (50 * 1024 * 1024) := by
  refine ⟨?_, ?_, ?_, rfl, rfl⟩ <;>
    by_cases ht : file.type ∈ allowedTypes <;>
      by_cases hs : file.size > maxSizeInBytes <;>
        (simp [validateFile, ht, hs]; try omega)

/-- Witness for C2 at a concrete rejected file. -/
theorem validateFile_spec_witness :
    ∃ msg, (validateFile ⟨"a.txt", "text/plain", 100⟩ ["image/png"] 1000).error = some msg :=
  (validateFile_spec ⟨"a.txt", "text/plain", 100⟩ ["image/png"] 1000).2.2.1 (by decide)

/-! ### Claim C8: row-level security -/

/-- C8: the row-level-security policies allow every identity to read all
`users` and `magic_tricks` rows and prevent a non-owning identity from
inserting, updating, or deleting another user's profile or trick row
(`users` has no delete policy at all, so delete is denied for everyone). -/
theorem rls_owner_only (uid : String) (urow : UsersRow) (trow : TricksRow) :
    usersPolicyAllows uid .select urow = true ∧
    tricksPolicyAllows uid .select trow = true ∧
    (uid ≠ urow.id →
      usersPolicyAllows uid .insert urow = false ∧
      usersPolicyAllows uid .update urow = false ∧
      usersPolicyAllows uid .delete urow = false) ∧
    (uid ≠ trow.user_id →
      tricksPolicyAllows uid .insert trow = false ∧
      tricksPolicyAllows uid .update trow = false ∧
      tricksPolicyAllows uid .delete trow = false) := by
  refine ⟨rfl, rfl, fun h => ⟨?_, ?_, rfl⟩, fun h => ⟨?_, ?_, ?_⟩⟩ <;>
    simp [usersPolicyAllows, tricksPolicyAllows, h]

/-- Witness for C8 at a concrete non-owning identity. -/
theorem rls_owner_only_witness :
    usersPolicyAllows "alice" .update ⟨"bob"⟩ = false ∧
    tricksPolicyAllows "alice" .delete ⟨"bob"⟩ = false :=
  ⟨((rls_owner_only "alice" ⟨"bob"⟩ ⟨"bob"⟩).2.2.1 (by decide)).2.1,
   ((rls_owner_only "alice" ⟨"bob"⟩ ⟨"bob"⟩).2.2.2 (by decide)).2.2⟩

/-! ### Claim C6: uploads are namespaced by owner identity -/

/-- C6: `uploadFile` (and hence `uploadProfilePicture` and
`uploadUserVideo`) uploads to, and on success returns, the path
`userId + "/" + filename`; moreover its result depends on the remote
storage service only at that namespaced path. -/
theorem upload_path_namespaced (env env' : StorageEnv) (bucket path : String) (file : JsFile)
    (userId : String) (ts : Int) (customName : Option String) :
    ((uploadFile env bucket path file userId).success = true →
      (uploadFile env bucket path file userId).path = some (userId ++ "/" ++ path)) ∧
    ((uploadProfilePicture env file userId ts).success = true →
      (uploadProfilePicture env file userId ts).path =
        some (userId ++ "/" ++ ("profile_" ++ intDec ts ++ "." ++ fileExtension file.name "jpg"))) ∧
    ((uploadUserVideo env file userId ts customName).success = true →
      ∃ filename, (uploadUserVideo env file userId ts customName).path =
        some (userId ++ "/" ++ filename)) ∧
    ((∀ b, env.upload b (userId ++ "/" ++ path) = env'.upload b (userId ++ "/" ++ path)) →
      (∀ b, env.publicUrl b (userId ++ "/" ++ path) = env'.publicUrl b (userId ++ "/" ++ path)) →
      uploadFile env bucket path file userId = uploadFile env' bucket path file userId) := by
  have huf : ∀ (e : StorageEnv) (b p : String) (f : JsFile) (u : String),
      (uploadFile e b p f u).success = true →
      (uploadFile e b p f u).path = some (u ++ "/" ++ p) := by
    intro e b p f u
    cases hup : e.upload b (u ++ "/" ++ p) with
    | err m => simp [uploadFile, hup]
    | threw ex => cases ex <;> simp [uploadFile, hup]
    | ok => simp [uploadFile, hup]
  refine ⟨huf env bucket path file userId, ?_, ?_, ?_⟩
  · exact huf env "profile_pictures" _ file userId
  · intro h
    exact ⟨_, huf env "user_videos" _ file userId h⟩
  · intro h1 h2
    simp only [uploadFile, h1 bucket, h2 bucket]

/-- Witness for C6 at a concrete successful upload. -/
theorem upload_path_namespaced_witness :
    (uploadFile
        { upload := fun _ _ => .ok, publicUrl := fun _ p => "https://cdn.example/" ++ p }
        "profile_pictures" "p.png" ⟨"p.png", "image/png", 1⟩ "user1").path =
      some ("user1" ++ "/" ++ "p.png") :=
  (upload_path_namespaced
      { upload := fun _ _ => .ok, publicUrl := fun _ p => "https://cdn.example/" ++ p }
      { upload := fun _ _ => .ok, publicUrl := fun _ p => "https://cdn.example/" ++ p }
      "profile_pictures" "p.png" ⟨"p.png", "image/png", 1⟩ "user1" 0 none).1 rfl

/-! ### Claim C4: `generateMagicTrick` error handling -/

/-- C4 counterexample: when the remote call throws an `Error` whose own
message is empty, `generateMagicTrick` returns `success = false` with the
empty string as its error message, so the error message is not always
non-empty. -/
theorem generateMagicTrick_empty_error_message :
    (generateMagicTrick (some "key") (.threw (.error "")) ["coin"]).success = false ∧
    (generateMagicTrick (some "key") (.threw (.error "")) ["coin"]).error = some "" :=
  ⟨rfl, rfl⟩

/-- C4 (amended): `generateMagicTrick` never propagates a failure: it
always returns a response, with an error message present whenever
`success = false` (the fixed non-empty message for a missing API key,
missing or empty reply content, or a non-`Error` throw, and the thrown
`Error`'s own message otherwise), and with the trick present whenever
`success = true`. -/
theorem generateMagicTrick_spec (apiKey : Option String) (api : ApiOutcome)
    (items : List String) :
    ((generateMagicTrick apiKey api items).success = false →
      ((generateMagicTrick apiKey api items).error).isSome = true) ∧
    ((generateMagicTrick apiKey api items).success = true →
      ((generateMagicTrick apiKey api items).trick).isSome = true) ∧
    (apiKey = none ∨ apiKey = some "" →
      generateMagicTrick apiKey api items =
        { success := false, trick := none
          error := some "Claude API key not configured. Please add VITE_CLAUDE_API_KEY to your environment variables." }) ∧
    (∀ k, apiKey = some k → k ≠ "" →
      (api = .replied none ∨ api = .replied (some "") →
        generateMagicTrick apiKey api items =
          { success := false, trick := none, error := some "No content received from Claude API" }) ∧
      (∀ m, api = .threw (.error m) →
        generateMagicTrick apiKey api items =
          { success := false, trick := none, error := some m }) ∧
      (api = .threw .other →
        generateMagicTrick apiKey api items =
          { success := false, trick := none, error := some "Failed to generate magic trick" }) ∧
      (∀ c, api = .replied (some c) → c ≠ "" →
        generateMagicTrick apiKey api items =
          { success := true, trick := some (parseGeneratedTrick c items), error := none })) := by
  rcases apiKey with _ | k
  · refine ⟨?_, ?_, ?_, ?_⟩
    · intro _; rfl
    · intro h; exact absurd h (by simp [generateMagicTrick])
    · intro _; rfl
    · intro k hk; exact absurd hk (by simp)
  · by_cases hk : k = ""
    · subst hk
      refine ⟨?_, ?_, ?_, ?_⟩
      · intro _; rfl
      · intro h; exact absurd h (by simp [generateMagicTrick])
      · intro _; rfl
      · intro k' hk'
        intro hne
        exact absurd (by simpa using hk'.symm) hne
    · refine ⟨?_, ?_, ?_, ?_⟩
      · rcases api with e | c
        · cases e <;> simp [generateMagicTrick, hk]
        · rcases c with _ | c
          · simp [generateMagicTrick, hk]
          · by_cases hc : c = "" <;> simp [generateMagicTrick, hk, hc]
      · rcases api with e | c
        · cases e <;> simp [generateMagicTrick, hk]
        · rcases c with _ | c
          · simp [generateMagicTrick, hk]
          · by_cases hc : c = "" <;> simp [generateMagicTrick, hk, hc]
      · rintro (h | h)
        · exact absurd h (by simp)
        · exact absurd (by simpa using h) hk
      · intro k' hk' hne
        refine ⟨?_, ?_, ?_, ?_⟩
        · rintro (rfl | rfl)
          · simp [generateMagicTrick, hk]
          · simp [generateMagicTrick, hk]
        · rintro m rfl; simp [generateMagicTrick, hk]
        · rintro rfl; simp [generateMagicTrick, hk]
        · rintro c rfl hc; simp [generateMagicTrick, hk, hc]

/-- Witness for C4 at concrete inputs. -/
theorem generateMagicTrick_spec_witness :
    ((generateMagicTrick (some "key") (.replied (some "hello")) ["coin"]).trick).isSome = true ∧
    generateMagicTrick (none : Option String) (.replied (some "hello")) ["coin"] =
      { success := false, trick := none
        error := some "Claude API key not configured. Please add VITE_CLAUDE_API_KEY to your environment variables." } ∧
    generateMagicTrick (some "key") (.replied (some "")) ["coin"] =
      { success := false, trick := none
        error := some "No content received from Claude API" } :=
  ⟨(generateMagicTrick_spec (some "key") (.replied (some "hello")) ["coin"]).2.1 rfl,
   (generateMagicTrick_spec none (.replied (some "hello")) ["coin"]).2.2.1 (Or.inl rfl),
   ((generateMagicTrick_spec (some "key") (.replied (some "")) ["coin"]).2.2.2 "key" rfl
      (by decide)).1 (Or.inr rfl)⟩

/-- The decimal printer never returns the empty string. -/
lemma intDec_ne_empty (n : Int) : intDec n ≠ "" := by
  rw [intDec]
  have hne : natDec n.natAbs ≠ [] :=
    natDecAux_ne_nil (n.natAbs + 1) n.natAbs [] (Or.inr (by omega))
  split
  · intro h
    simpa using congrArg String.data h
  · intro h
    exact hne (by simpa using congrArg String.data h)

/-! ### Claim C3: the 24-hour freshness boundary -/

/-- C3: the session cache is stale exactly when strictly more than
24 hours have elapsed since the last-sync timestamp: `isExpired` is the
strict bound, an expired store makes `getUser` and `getSession` return
`null` and `hasValidStoredAuth` return `false`, and at or before the
boundary the stored data is returned. -/
theorem session_cache_expiry (now ts : Int) (st : Store) (userData sessionData lastSync : String)
    (hu : getTruthy st KEY_USER = some userData)
    (hs : getTruthy st KEY_SESSION = some sessionData)
    (hl : getTruthy st KEY_LAST_SYNC = some lastSync)
    (hp : jsParseInt lastSync = some ts) :
    (isExpired now ts = true ↔ now - ts > 24 * 60 * 60 * 1000) ∧
    (now - ts > 24 * 60 * 60 * 1000 →
      (getUser st now).1 = none ∧ (getSession st now).1 = none ∧
      hasValidStoredAuth st now = false) ∧
    (now - ts ≤ 24 * 60 * 60 * 1000 →
      (getUser st now).1 = safeJsonParse userData ∧
      (getSession st now).1 = safeJsonParse sessionData ∧
      hasValidStoredAuth st now = ((safeJsonParse userData).elim false jsTruthy)) := by
  refine ⟨by simp [isExpired], ?_, ?_⟩
  · intro hexp
    have he : isExpiredOpt now (jsParseInt lastSync) = true := by
      rw [hp]
      simp only [isExpiredOpt, isExpired]
      simpa using hexp
    refine ⟨?_, ?_, ?_⟩
    · simp [getUser, hu, hl, he]
    · simp [getSession, hs, hl, he]
    · simp [hasValidStoredAuth, getUser, hu, hl, he]
  · intro hfresh
    have he : isExpiredOpt now (jsParseInt lastSync) = false := by
      rw [hp]
      simp only [isExpiredOpt, isExpired]
      simpa using hfresh
    refine ⟨?_, ?_, ?_⟩
    · simp [getUser, hu, hl, he]
    · simp [getSession, hs, hl, he]
    · rw [hasValidStoredAuth]
      simp only [getUser, hu, hl, he, Bool.false_eq_true, if_false]
      cases hv : safeJsonParse userData with
      | none => simp
      | some u => cases hju : jsTruthy u <;> simp [hju, hl, he, hp, isExpiredOpt]

/-- Concrete store for the C3 witness. -/
def c3Store : Store := fun k =>
  if k = KEY_USER then some "\x7b\"id\":\"u1\"\x7d"
  else if k = KEY_SESSION then some "\x7b\"access_token\":\"tok\"\x7d"
  else if k = KEY_LAST_SYNC then some "1000"
  else none

/-- Witness for C3: an expired concrete store reads back empty. -/
theorem session_cache_expiry_witness :
    (getUser c3Store 86402000).1 = none ∧ (getSession c3Store 86402000).1 = none ∧
    hasValidStoredAuth c3Store 86402000 = false :=
  (session_cache_expiry 86402000 1000 c3Store
      "\x7b\"id\":\"u1\"\x7d" "\x7b\"access_token\":\"tok\"\x7d" "1000"
      rfl rfl rfl rfl).2.1 (by decide)

/-! ### Claim C10: expired reads self-clean the store -/

/-- C10: reading an expired entry self-cleans the store: `getUser`
removes the stored user and the last-sync key (so any later
`hasValidStoredAuth` is `false`), `getUserProfile` removes only the
stored profile, `getSession` removes only the stored session, each
returning `null` and leaving every other key unchanged. -/
theorem expired_read_self_clean (st : Store) (now ts : Int)
    (userData profileData sessionData lastSync : String)
    (hu : getTruthy st KEY_USER = some userData)
    (hprof : getTruthy st KEY_USER_PROFILE = some profileData)
    (hsess : getTruthy st KEY_SESSION = some sessionData)
    (hl : getTruthy st KEY_LAST_SYNC = some lastSync)
    (hp : jsParseInt lastSync = some ts)
    (hexp : now - ts > 24 * 60 * 60 * 1000) :
    ((getUser st now).1 = none ∧
      ((getUser st now).2) KEY_USER = none ∧
      ((getUser st now).2) KEY_LAST_SYNC = none ∧
      (∀ k, k ≠ KEY_USER → k ≠ KEY_LAST_SYNC → ((getUser st now).2) k = st k) ∧
      (∀ later, hasValidStoredAuth ((getUser st now).2) later = false)) ∧
    ((getUserProfile st now).1 = none ∧
      ((getUserProfile st now).2) KEY_USER_PROFILE = none ∧
      (∀ k, k ≠ KEY_USER_PROFILE → ((getUserProfile st now).2) k = st k)) ∧
    ((getSession st now).1 = none ∧
      ((getSession st now).2) KEY_SESSION = none ∧
      (∀ k, k ≠ KEY_SESSION → ((getSession st now).2) k = st k)) := by
  have he : isExpiredOpt now (jsParseInt lastSync) = true := by
    rw [hp]
    simp only [isExpiredOpt, isExpired]
    simpa using hexp
  have hgu : getUser st now = (none, clearUser st) := by
    simp [getUser, hu, hl, he]
  have hgp : getUserProfile st now = (none, clearUserProfile st) := by
    simp [getUserProfile, hprof, hl, he]
  have hgs : getSession st now = (none, clearSession st) := by
    simp [getSession, hsess, hl, he]
  refine ⟨⟨?_, ?_, ?_, ?_, ?_⟩, ⟨?_, ?_, ?_⟩, ⟨?_, ?_, ?_⟩⟩
  · rw [hgu]
  · rw [hgu]; simp [clearUser, removeItem]
  · rw [hgu]; simp [clearUser, removeItem]
  · intro k h1 h2
    rw [hgu]
    simp [clearUser, removeItem, h1, h2]
  · intro later
    rw [hgu]
    have : getTruthy (clearUser st) KEY_USER = none := by
      rw [clearUser, getTruthy_removeItem_other _ _ _ (by decide), getTruthy_removeItem_same]
    simp [hasValidStoredAuth, getUser, this]
  · rw [hgp]
  · rw [hgp]; simp [clearUserProfile, removeItem]
  · intro k h1
    rw [hgp]
    simp [clearUserProfile, removeItem, h1]
  · rw [hgs]
  · rw [hgs]; simp [clearSession, removeItem]
  · intro k h1
    rw [hgs]
    simp [clearSession, removeItem, h1]

/-- Concrete store for the C10 witness. -/
def c10Store : Store := fun k =>
  if k = KEY_USER then some "\x7b\"id\":\"u1\"\x7d"
  else if k = KEY_USER_PROFILE then some "\x7b\"name\":\"U\"\x7d"
  else if k = KEY_SESSION then some "\x7b\"access_token\":\"tok\"\x7d"
  else if k = KEY_LAST_SYNC then some "1000"
  else if k = "other_key" then some "kept"
  else none

/-- Witness for C10: the concrete expired store self-cleans but keeps
unrelated keys. -/
theorem expired_read_self_clean_witness :
    ((getUser c10Store 86402000).2) KEY_USER = none ∧
    ((getUser c10Store 86402000).2) "other_key" = c10Store "other_key" ∧
    hasValidStoredAuth ((getUser c10Store 86402000).2) 86402000 = false :=
  ⟨(expired_read_self_clean c10Store 86402000 1000
      "\x7b\"id\":\"u1\"\x7d" "\x7b\"name\":\"U\"\x7d" "\x7b\"access_token\":\"tok\"\x7d" "1000"
      rfl rfl rfl rfl rfl (by decide)).1.2.1,
   (expired_read_self_clean c10Store 86402000 1000
      "\x7b\"id\":\"u1\"\x7d" "\x7b\"name\":\"U\"\x7d" "\x7b\"access_token\":\"tok\"\x7d" "1000"
      rfl rfl rfl rfl rfl (by decide)).1.2.2.2.1 "other_key" (by decide) (by decide),
   (expired_read_self_clean c10Store 86402000 1000
      "\x7b\"id\":\"u1\"\x7d" "\x7b\"name\":\"U\"\x7d" "\x7b\"access_token\":\"tok\"\x7d" "1000"
      rfl rfl rfl rfl rfl (by decide)).1.2.2.2.2 86402000⟩

/-! ### Claim C7: session-cache round trip -/

/-- C7: saving a non-null user that JSON-round-trips and reading it back
within the freshness window returns the same user; saving `null` removes
the stored user, so a subsequent read returns `null`. -/
theorem saveUser_getUser_roundtrip (st : Store) (now now2 : Int) (u : JVal)
    (hrt : jsonParse (jsonStringify u) = some u)
    (hfresh : now2 - now ≤ 24 * 60 * 60 * 1000) :
    (getUser (saveUser st now (some u)) now2).1 = some u ∧
    (getUser (saveUser st now (none : Option JVal)) now2).1 = none := by
  constructor
  · have h1 : getTruthy (saveUser st now (some u)) KEY_USER = some (jsonStringify u) := by
      rw [saveUser]
      simp only [safeJsonStringify]
      rw [getTruthy_setItem_other _ _ _ _ (by decide), getTruthy_setItem_same]
      simp [jsonStringify_ne_empty u]
    have h2 : getTruthy (saveUser st now (some u)) KEY_LAST_SYNC = some (intDec now) := by
      rw [saveUser]
      simp only [safeJsonStringify]
      rw [getTruthy_setItem_same]
      simp [intDec_ne_empty now]
    have he : isExpiredOpt now2 (jsParseInt (intDec now)) = false := by
      rw [jsParseInt_intDec]
      simp only [isExpiredOpt, isExpired]
      simpa using hfresh
    simp [getUser, h1, h2, he, safeJsonParse, hrt]
  · have h1 : getTruthy (saveUser st now (none : Option JVal)) KEY_USER = none := by
      rw [saveUser]
      rw [getTruthy_removeItem_other _ _ _ (by decide), getTruthy_removeItem_same]
    simp [getUser, h1]

/-- Witness for C7 at a concrete user object. -/
theorem saveUser_getUser_roundtrip_witness :
    (getUser (saveUser (fun _ => none) 50 (some (.obj [("id", .str "u1")]))) 60).1 =
      some (.obj [("id", .str "u1")]) ∧
    (getUser (saveUser (fun _ => none) 50 (none : Option JVal)) 60).1 = none :=
  saveUser_getUser_roundtrip (fun _ => none) 50 60 (.obj [("id", .str "u1")]) rfl (by decide)

/-! ### Claim C5: profile-creation retries -/

/-- C5: `createUserProfile` makes at most three insert attempts (the
initial one plus at most two retries), schedules one fixed 2000 ms delay
per retry, retries only after a permission error, and — when every
attempt fails — installs the temporary in-memory profile and saves it to
the local cache instead of failing. -/
theorem profile_creation_retry (ins : Nat → InsertOutcome) (u : AuthUser)
    (userId nowIso : String) (st : Store) :
    (1 ≤ (createUserProfile (.ok u) ins userId nowIso st 0).attempts ∧
      (createUserProfile (.ok u) ins userId nowIso st 0).attempts ≤ 3) ∧
    (createUserProfile (.ok u) ins userId nowIso st 0).delays.length =
      (createUserProfile (.ok u) ins userId nowIso st 0).attempts - 1 ∧
    (∀ d ∈ (createUserProfile (.ok u) ins userId nowIso st 0).delays, d = 2000) ∧
    (∀ i, i + 1 < (createUserProfile (.ok u) ins userId nowIso st 0).attempts →
      ∃ e, ins i = .err e ∧ isPermissionError e = true) ∧
    ((∀ i, i < 3 → ∃ e, ins i = .err e) →
      (createUserProfile (.ok u) ins userId nowIso st 0).viaTemp = true ∧
      (createUserProfile (.ok u) ins userId nowIso st 0).outcome =
        some (tempProfile u userId nowIso) ∧
      (createUserProfile (.ok u) ins userId nowIso st 0).store =
        saveUserProfile st (some (tempProfile u userId nowIso))) ∧
    ((createUserProfile (.ok u) ins userId nowIso st 0).viaTemp = true →
      ∃ e, ins ((createUserProfile (.ok u) ins userId nowIso st 0).attempts - 1) = .err e) := by
  rcases hins0 : ins 0 with row0 | e0
  · -- first attempt succeeds
    have hr : createUserProfile (.ok u) ins userId nowIso st 0 =
        { outcome := some row0, viaTemp := false, attempts := 1, delays := []
          store := saveUserProfile st (some row0) } := by
      rw [createUserProfile, hins0]
    rw [hr]
    refine ⟨by simp, by simp, by simp, ?_, ?_, by simp⟩
    · intro i hi
      simp at hi
    · intro hall
      rcases hall 0 (by omega) with ⟨e, he⟩
      rw [hins0] at he
      cases he
  · by_cases hp0 : isPermissionError e0 = true
    · rcases hins1 : ins 1 with row1 | e1
      · -- retry once, second attempt succeeds
        have hr : createUserProfile (.ok u) ins userId nowIso st 0 =
            { outcome := some row1, viaTemp := false, attempts := 2, delays := [2000]
              store := saveUserProfile st (some row1) } := by
          rw [createUserProfile, hins0]
          simp only [hp0]
          rw [dif_pos (by decide), createUserProfile, hins1]
        rw [hr]
        refine ⟨by simp, by simp, by simp, ?_, ?_, by simp⟩
        · intro i hi
          have : i = 0 := by simp at hi; omega
          subst this
          exact ⟨e0, hins0, hp0⟩
        · intro hall
          rcases hall 1 (by omega) with ⟨e, he⟩
          rw [hins1] at he
          cases he
      · by_cases hp1 : isPermissionError e1 = true
        · rcases hins2 : ins 2 with row2 | e2
          · -- two retries, third attempt succeeds
            have hr : createUserProfile (.ok u) ins userId nowIso st 0 =
                { outcome := some row2, viaTemp := false, attempts := 3
                  delays := [2000, 2000], store := saveUserProfile st (some row2) } := by
              rw [createUserProfile, hins0]
              simp only [hp0]
              rw [dif_pos (by decide), createUserProfile, hins1]
              simp only [hp1]
              rw [dif_pos (by decide), createUserProfile, hins2]
            rw [hr]
            refine ⟨by simp, by simp, by simp, ?_, ?_, by simp⟩
            · intro i hi
              have hi2 : i = 0 ∨ i = 1 := by simp at hi; omega
              rcases hi2 with rfl | rfl
              · exact ⟨e0, hins0, hp0⟩
              · exact ⟨e1, hins1, hp1⟩
            · intro hall
              rcases hall 2 (by omega) with ⟨e, he⟩
              rw [hins2] at he
              cases he
          · -- two retries, third attempt fails: temporary profile
            have hr : createUserProfile (.ok u) ins userId nowIso st 0 =
                { outcome := some (tempProfile u userId nowIso), viaTemp := true
                  attempts := 3, delays := [2000, 2000]
                  store := saveUserProfile st (some (tempProfile u userId nowIso)) } := by
              rw [createUserProfile, hins0]
              simp only [hp0]
              rw [dif_pos (by decide), createUserProfile, hins1]
              simp only [hp1]
              rw [dif_pos (by decide), createUserProfile, hins2]
              simp
            rw [hr]
            refine ⟨by simp, by simp, by simp, ?_, ?_, ?_⟩
            · intro i hi
              have hi2 : i = 0 ∨ i = 1 := by simp at hi; omega
              rcases hi2 with rfl | rfl
              · exact ⟨e0, hins0, hp0⟩
              · exact ⟨e1, hins1, hp1⟩
            · intro _
              exact ⟨rfl, rfl, rfl⟩
            · intro _
              exact ⟨e2, hins2⟩
        · -- one retry, second attempt fails without permission error
          have hr : createUserProfile (.ok u) ins userId nowIso st 0 =
              { outcome := some (tempProfile u userId nowIso), viaTemp := true
                attempts := 2, delays := [2000]
                store := saveUserProfile st (some (tempProfile u userId nowIso)) } := by
            rw [createUserProfile, hins0]
            simp only [hp0]
            rw [dif_pos (by decide), createUserProfile, hins1]
            simp [hp1]
          rw [hr]
          refine ⟨by simp, by simp, by simp, ?_, ?_, ?_⟩
          · intro i hi
            have : i = 0 := by simp at hi; omega
            subst this
            exact ⟨e0, hins0, hp0⟩
          · intro _
            exact ⟨rfl, rfl, rfl⟩
          · intro _
            exact ⟨e1, hins1⟩
    · -- first attempt fails without permission error: no retry
      have hr : createUserProfile (.ok u) ins userId nowIso st 0 =
          { outcome := some (tempProfile u userId nowIso), viaTemp := true
            attempts := 1, delays := []
            store := saveUserProfile st (some (tempProfile u userId nowIso)) } := by
        rw [createUserProfile, hins0]
        simp [hp0]
      rw [hr]
      refine ⟨by simp, by simp, by simp, ?_, ?_, ?_⟩
      · intro i hi
        simp at hi
      · intro _
        exact ⟨rfl, rfl, rfl⟩
      · intro _
        exact ⟨e0, hins0⟩

/-- Witness for C5: all three attempts fail with permission errors, so
the temporary profile is installed after exactly two 2000 ms retries. -/
theorem profile_creation_retry_witness :
    (createUserProfile (.ok ⟨some "a@b.c", none, none⟩)
        (fun _ => .err ⟨"42501", "permission denied"⟩) "u1" "2024-01-01" (fun _ => none)
        0).viaTemp = true ∧
    (createUserProfile (.ok ⟨some "a@b.c", none, none⟩)
        (fun _ => .err ⟨"42501", "permission denied"⟩) "u1" "2024-01-01" (fun _ => none)
        0).outcome = some (tempProfile ⟨some "a@b.c", none, none⟩ "u1" "2024-01-01") ∧
    (createUserProfile (.ok ⟨some "a@b.c", none, none⟩)
        (fun _ => .err ⟨"42501", "permission denied"⟩) "u1" "2024-01-01" (fun _ => none)
        0).store = saveUserProfile (fun _ => none)
          (some (tempProfile ⟨some "a@b.c", none, none⟩ "u1" "2024-01-01")) :=
  (profile_creation_retry (fun _ => .err ⟨"42501", "permission denied"⟩)
      ⟨some "a@b.c", none, none⟩ "u1" "2024-01-01" (fun _ => none)).2.2.2.2.1
    (fun _ _ => ⟨⟨"42501", "permission denied"⟩, rfl⟩)

/-! ### Claims C1 and C9: the completion-reply parser -/

/-- `dropWhile` passes over a prefix on which the predicate holds
everywhere. -/
lemma dropWhile_append_of_all {p : Char → Bool} {l1 l2 : List Char}
    (h : ∀ c ∈ l1, p c = true) : (l1 ++ l2).dropWhile p = l2.dropWhile p := by
  induction l1 with
  | nil => rfl
  | cons a l ih =>
      rw [List.cons_append, List.dropWhile_cons, h a (by simp), if_pos rfl]
      exact ih (fun c hc => h c (by simp [hc]))

/-- `dropToBrace` skips any brace-free prefix. -/
lemma dropToBrace_append {pre rest : List Char} (h : ∀ c ∈ pre, c ≠ '{') :
    dropToBrace (pre ++ rest) = dropToBrace rest := by
  induction pre with
  | nil => rfl
  | cons a l ih =>
      rw [List.cons_append, dropToBrace, if_neg (h a (by simp))]
      exact ih (fun c hc => h c (by simp [hc]))

/-- `keepToLastClose` recovers a block ending in `'\x7d'` from input with
a close-brace-free tail appended. -/
lemma keepToLastClose_decomp (s post : List Char) (hpost : ∀ c ∈ post, c ≠ '}') :
    keepToLastClose ((s ++ ['}']) ++ post) = some (s ++ ['}']) := by
  rw [keepToLastClose]
  have hrev : ((s ++ ['}']) ++ post).reverse = post.reverse ++ ('}' :: s.reverse) := by
    simp
  rw [hrev]
  have hdw : (post.reverse ++ ('}' :: s.reverse)).dropWhile (fun c => c ≠ '}')
      = '}' :: s.reverse := by
    rw [dropWhile_append_of_all (fun c hc => by
      simp only [decide_eq_true_eq]
      exact hpost c (List.mem_reverse.mp hc))]
    rw [List.dropWhile_cons]
    simp
  rw [hdw]
  simp

/-- The greedy brace match on a decomposed reply: a brace-free prose
prefix, a block starting with `'\x7b'` and ending with `'\x7d'`, and a
close-brace-free prose suffix yield exactly the block. -/
lemma extractBraces_decomp (pre t s post : List Char)
    (hpre : ∀ c ∈ pre, c ≠ '{') (hpost : ∀ c ∈ post, c ≠ '}')
    (hjson : '{' :: t = s ++ ['}']) :
    extractBraces (pre ++ ('{' :: t) ++ post) = some ('{' :: t) := by
  rw [extractBraces]
  have h1 : dropToBrace (pre ++ ('{' :: t) ++ post) = some (('{' :: t) ++ post) := by
    rw [List.append_assoc, dropToBrace_append hpre]
    rw [List.cons_append, dropToBrace, if_pos rfl]
  rw [h1]
  show keepToLastClose (('{' :: t) ++ post) = some ('{' :: t)
  rw [hjson]
  exact keepToLastClose_decomp s post hpost

/-- C1 counterexample: a reply whose embedded JSON is well-formed but has
a wrong-typed `difficulty` field (a number) is not mapped to the
hardcoded fallback trick; the wrong-typed field alone is replaced by its
per-field default. -/
theorem parseGeneratedTrick_wrong_type_not_fallback :
    parseGeneratedTrick
        "Here is your trick: \x7b\"title\": \"The Vanishing Coin\", \"difficulty\": 5\x7d"
        ["coin"] =
      { title := .str "The Vanishing Coin"
        description := .str "A magical trick created just for you!"
        instructions := [.str "Follow the magic!"]
        difficulty := "Easy"
        items := [.str "coin"] } ∧
    parseGeneratedTrick
        "Here is your trick: \x7b\"title\": \"The Vanishing Coin\", \"difficulty\": 5\x7d"
        ["coin"] ≠
      fallbackTrick ["coin"] := by
  have hval : parseGeneratedTrick
      "Here is your trick: \x7b\"title\": \"The Vanishing Coin\", \"difficulty\": 5\x7d"
      ["coin"] =
      { title := .str "The Vanishing Coin"
        description := .str "A magical trick created just for you!"
        instructions := [.str "Follow the magic!"]
        difficulty := "Easy"
        items := [.str "coin"] } := rfl
  refine ⟨hval, ?_⟩
  intro h
  rw [hval] at h
  simp [fallbackTrick] at h

/-- C1 (amended): `parseGeneratedTrick` returns the hardcoded fallback
trick exactly when no brace-delimited substring exists or that substring
fails to parse as JSON; when the reply decomposes as brace-free prose, a
well-formed JSON block, and close-brace-free prose, it returns the
per-field cleanup of the parsed block (wrong-typed or falsy fields get
their individual defaults, not the fallback trick). -/
theorem parseGeneratedTrick_spec (content : String) (items : List String) :
    (extractBraces content.data = none →
      parseGeneratedTrick content items = fallbackTrick items) ∧
    (∀ cs, extractBraces content.data = some cs → jsonParseChars cs = none →
      parseGeneratedTrick content items = fallbackTrick items) ∧
    (∀ pre t s post v,
      content.data = pre ++ ('{' :: t) ++ post →
      (∀ c ∈ pre, c ≠ '{') → (∀ c ∈ post, c ≠ '}') →
      '{' :: t = s ++ ['}'] →
      jsonParseChars ('{' :: t) = some v →
      parseGeneratedTrick content items = cleanTrick v items) := by
  refine ⟨?_, ?_, ?_⟩
  · intro h
    rw [parseGeneratedTrick, h]
  · intro cs h1 h2
    rw [parseGeneratedTrick, h1]
    show (match jsonParseChars cs with
      | none => fallbackTrick items
      | some parsed => cleanTrick parsed items) = fallbackTrick items
    rw [h2]
  · intro pre t s post v hdec hpre hpost hjson hparse
    have hex : extractBraces content.data = some ('{' :: t) := by
      rw [hdec]
      exact extractBraces_decomp pre t s post hpre hpost hjson
    rw [parseGeneratedTrick, hex]
    show (match jsonParseChars ('{' :: t) with
      | none => fallbackTrick items
      | some parsed => cleanTrick parsed items) = cleanTrick v items
    rw [hparse]

/-- Witness for C1: a reply with prose around a JSON block parses to the
cleaned trick. -/
theorem parseGeneratedTrick_spec_witness :
    parseGeneratedTrick "Sure: \x7b\"difficulty\":\"Hard\"\x7d Enjoy" ["coin"] =
      { title := .str "Generated Magic Trick"
        description := .str "A magical trick created just for you!"
        instructions := [.str "Follow the magic!"]
        difficulty := "Hard"
        items := [.str "coin"] } :=
  ((parseGeneratedTrick_spec "Sure: \x7b\"difficulty\":\"Hard\"\x7d Enjoy" ["coin"]).2.2
      "Sure: ".data "\"difficulty\":\"Hard\"\x7d".data "\x7b\"difficulty\":\"Hard\"".data
      " Enjoy".data (.obj [("difficulty", .str "Hard")])
      (by decide) (by decide) (by decide) (by decide) rfl).trans rfl

/-- Truthiness of `a || b` when the default `b` is truthy. -/
lemma jsTruthy_jsOr (a : Option JVal) (b : JVal) (hb : jsTruthy b = true) :
    jsTruthy (jsOr a b) = true := by
  rcases a with _ | v
  · exact hb
  · rw [jsOr]
    cases hv : jsTruthy v <;> simp [hv, hb]

/-- C9 counterexample: an embedded JSON with an empty `instructions`
array yields a trick whose `instructions` list is empty (the other
fields taking the cleaned-path defaults), so the parsed fields are not
always non-empty. -/
theorem parseGeneratedTrick_empty_instructions :
    (parseGeneratedTrick "\x7b\"instructions\": []\x7d" ["coin"]).instructions = [] ∧
    (parseGeneratedTrick "\x7b\"instructions\": []\x7d" ["coin"]).title =
      .str "Generated Magic Trick" :=
  ⟨rfl, rfl⟩

/-- C9 (amended): every trick returned by `parseGeneratedTrick` has a
difficulty among Easy/Medium/Hard, a truthy (defaulted when missing or
falsy) title and description, always-present instruction and item lists,
and its items equal the requested list whenever the parse fails or the
parsed JSON's `items` field is not an array (the lists may however be
empty when the JSON supplies an empty array). -/
theorem parseGeneratedTrick_invariants (content : String) (items : List String) :
    ((parseGeneratedTrick content items).difficulty = "Easy" ∨
      (parseGeneratedTrick content items).difficulty = "Medium" ∨
      (parseGeneratedTrick content items).difficulty = "Hard") ∧
    jsTruthy (parseGeneratedTrick content items).title = true ∧
    jsTruthy (parseGeneratedTrick content items).description = true ∧
    (extractBraces content.data = none →
      (parseGeneratedTrick content items).items = items.map .str) ∧
    (∀ cs, extractBraces content.data = some cs → jsonParseChars cs = none →
      (parseGeneratedTrick content items).items = items.map .str) ∧
    (∀ cs v, extractBraces content.data = some cs → jsonParseChars cs = some v →
      (∀ xs, jvGet v "items" ≠ some (.arr xs)) →
      (parseGeneratedTrick content items).items = items.map .str) := by
  have hfb : ∀ l : List String,
      (fallbackTrick l).difficulty = "Easy" ∧ jsTruthy (fallbackTrick l).title = true ∧
      jsTruthy (fallbackTrick l).description = true ∧ (fallbackTrick l).items = l.map .str := by
    intro l
    exact ⟨rfl, rfl, rfl, rfl⟩
  have hct : ∀ v,
      ((cleanTrick v items).difficulty = "Easy" ∨ (cleanTrick v items).difficulty = "Medium" ∨
        (cleanTrick v items).difficulty = "Hard") ∧
      jsTruthy (cleanTrick v items).title = true ∧
      jsTruthy (cleanTrick v items).description = true := by
    intro v
    refine ⟨?_, jsTruthy_jsOr _ _ rfl, jsTruthy_jsOr _ _ rfl⟩
    rw [cleanTrick]
    rcases jvGet v "difficulty" with _ | d
    · simp
    · cases d with
      | str ds =>
          simp only
          split
          · rename_i hcond
            simp only [Bool.or_eq_true, decide_eq_true_eq] at hcond
            tauto
          · simp
      | null => simp
      | bool b => simp
      | num n => simp
      | arr xs => simp
      | obj fs => simp
  rcases hx : extractBraces content.data with _ | cs
  · have hr : parseGeneratedTrick content items = fallbackTrick items := by
      rw [parseGeneratedTrick, hx]
    rw [hr]
    rcases hfb items with ⟨h1, h2, h3, h4⟩
    refine ⟨Or.inl h1, h2, h3, fun _ => h4, ?_, ?_⟩
    · intro cs h hpn
      cases h
    · intro cs v h hv hna
      cases h
  · rcases hp : jsonParseChars cs with _ | v
    · have hr : parseGeneratedTrick content items = fallbackTrick items := by
        rw [parseGeneratedTrick, hx]
        show (match jsonParseChars cs with
          | none => fallbackTrick items
          | some parsed => cleanTrick parsed items) = fallbackTrick items
        rw [hp]
      rw [hr]
      rcases hfb items with ⟨h1, h2, h3, h4⟩
      refine ⟨Or.inl h1, h2, h3, ?_, ?_, ?_⟩
      · intro h
        cases h
      · intro cs' h hv
        exact h4
      · intro cs' v' h hv hna
        cases h
        rw [hp] at hv
        cases hv
    · have hr : parseGeneratedTrick content items = cleanTrick v items := by
        rw [parseGeneratedTrick, hx]
        show (match jsonParseChars cs with
          | none => fallbackTrick items
          | some parsed => cleanTrick parsed items) = cleanTrick v items
        rw [hp]
      rw [hr]
      rcases hct v with ⟨h1, h2, h3⟩
      refine ⟨h1, h2, h3, ?_, ?_, ?_⟩
      · intro h
        cases h
      · intro cs' h hv
        cases h
        rw [hp] at hv
        cases hv
      · intro cs' v' h hv hnotarr
        cases h
        rw [hp] at hv
        cases hv
        rw [cleanTrick]
        rcases hi : jvGet v "items" with _ | w
        · simp
        · cases w with
          | arr xs => exact absurd hi (hnotarr xs)
          | null => simp
          | bool b => simp
          | num n => simp
          | str s => simp
          | obj fs => simp

/-- Witness for C9 at a concrete reply without JSON. -/
theorem parseGeneratedTrick_invariants_witness :
    ((parseGeneratedTrick "no json here" ["coin"]).difficulty = "Easy" ∨
      (parseGeneratedTrick "no json here" ["coin"]).difficulty = "Medium" ∨
      (parseGeneratedTrick "no json here" ["coin"]).difficulty = "Hard") ∧
    (parseGeneratedTrick "no json here" ["coin"]).items = ["coin"].map .str :=
  ⟨(parseGeneratedTrick_invariants "no json here" ["coin"]).1,
   (parseGeneratedTrick_invariants "no json here" ["coin"]).2.2.2.1 (by decide)⟩

end MagicTricks
